import Mathlib

/-!
Verification development for the impall repository (src/impall.py).

The embedding models filesystem paths as lists of nonempty segments
(the rendering of a segment list joins it with "/", and the empty list
renders as the empty string).  Filesystem state is an abstract pair of
predicates mirroring the only two queries the source performs,
os.path.exists and os.path.isdir; concrete scenarios derive both from a
directory tree rooted at the current working directory.  Loading a
module is an external effect of the host import system; it is modeled
as an oracle from dotted module names to either success or a captured
error detail, and the loader-state bookkeeping of ImpAllTest._import is
modeled separately as an explicit state transformer.
-/

namespace Impall

/-- Abstract filesystem: `existsP p` models os.path.exists and `isdir p`
models os.path.isdir on the path rendered from segment list `p`.  Paths
are interpreted relative to the current working directory; the empty
list renders as the empty string, for which both Python functions
return False in every concrete instantiation below. -/
structure FS where
  existsP : List String → Bool
  isdir : List String → Bool

/-- Python str.startswith on ASCII literals (String.startsWith does not
reduce in the kernel, so the list form is used). -/
def strStarts (s pre : String) : Bool := pre.toList.isPrefixOf s.toList

/-- Python str.endswith on ASCII literals. -/
def strEnds (s post : String) : Bool := post.toList.isSuffixOf s.toList

/-- os.path.basename of a rendered segment list: the last segment, or
the empty string for the empty path. -/
def basenameOf (p : List String) : String := (p.getLast?).getD ""

/-- Appending the literal ".py" to a rendered path, as in the source
expression p + ".py" inside path_to_import: the suffix attaches to the
last segment (for the empty path the result is the single segment
".py"). -/
def appendPy : List String → List String
  | [] => [".py"]
  | p => p.dropLast ++ [basenameOf p ++ ".py"]

/-- Stripping a trailing ".py", as in path[:-3] guarded by
path.endswith(".py"): the whole rendered string ends in ".py" exactly
when its last segment does. -/
def stripPy (p : List String) : List String :=
  if strEnds (basenameOf p) ".py" then p.dropLast ++ [(basenameOf p).dropRight 3] else p

/-- _is_ignored from src/impall.py line 286: basename starts with ".",
or (starts with "__" and the path is a directory), or the basename is
exactly "__init__.py".  The isdir query resolves against the current
working directory because the walker passes bare file names. -/
def is_ignored (fs : FS) (p : List String) : Bool :=
  let b := basenameOf p
  strStarts b "." || (strStarts b "__" && fs.isdir p || b == "__init__.py")

/-- _is_python_dir from src/impall.py line 293: the directory contains
an entry named "__init__.py" and is not itself ignored. -/
def is_python_dir (fs : FS) (p : List String) : Bool :=
  fs.existsP (p ++ ["__init__.py"]) && !is_ignored fs p

/-- The local isdir predicate inside path_to_import (line 248): a real
directory for which no sibling file with the same name plus ".py"
exists. -/
def isdirNoPy (fs : FS) (p : List String) : Bool :=
  fs.isdir p && !fs.existsP (appendPy p)

/-- The while loop of path_to_import (lines 251-257), processing the
path from its last segment; `rpath` is the reversed list of segments
not yet split off and `parts` accumulates the split segments
(shallowest first, which is the reversal the source performs at line
259).  While the current prefix is not a plain directory, or is a
package directory, the last segment moves into `parts`; when the
prefix is exhausted the loop stops with the empty search root. -/
def ptiLoop (fs : FS) (rpath parts : List String) : List String × List String :=
  let path := rpath.reverse
  if !isdirNoPy fs path || is_python_dir fs path then
    match rpath with
    | [] => ([], parts)
    | part :: rest => ptiLoop fs rest (part :: parts)
  else (path, parts)

/-- path_to_import from src/impall.py lines 233-259.  Returns none when
the path does not exist (FileNotFoundError); otherwise strips a ".py"
suffix and walks upward, returning the search root and the dotted
module name. -/
def path_to_import (fs : FS) (p : List String) : Option (List String × String) :=
  if !fs.existsP p then none
  else
    let p1 := stripPy p
    let (root, parts) := ptiLoop fs p1.reverse []
    some (root, String.intercalate "." parts)

/-- Glob matching as performed by fnmatch.translate: "*" matches any
run of characters (including "." and "/"), "?" matches exactly one
character, any other character matches itself literally.  The "*" case
tries every suffix of the remaining name, which is the regex ".*"
semantics.  None of the analyzed patterns contains a bracket class. -/
def globMatch : List Char → List Char → Bool
  | [], name => name.isEmpty
  | '*' :: ps, name => name.tails.any (fun t => globMatch ps t)
  | '?' :: ps, name =>
    match name with
    | [] => false
    | _ :: ns => globMatch ps ns
  | c :: ps, name =>
    match name with
    | [] => false
    | d :: ns => c == d && globMatch ps ns

/-- fnmatch.fnmatch(x, pat) on a case-sensitive (POSIX) filesystem,
where normcase is the identity. -/
def fnmatch (x pat : String) : Bool := globMatch pat.toList x.toList

/-- _split_pattern from src/impall.py line 307 applied to an already
split list: true when any pattern in the list fnmatch-matches x. -/
def split_pattern (pats : List String) (x : String) : Bool :=
  pats.any (fun p => fnmatch x p)

/-- ImpAllTest._inc (lines 137-142): when INCLUDE is None the matcher
accepts everything; otherwise it is _split_pattern of the list. -/
def incMatch : Option (List String) → String → Bool
  | none, _ => true
  | some pats, x => split_pattern pats x

/-- ImpAllTest._exc (lines 133-135): _split_pattern of EXCLUDE or (). -/
def excMatch (pats : List String) (x : String) : Bool := split_pattern pats x

/-- Length of the longest common segment prefix of two paths. -/
def commonLen : List String → List String → Nat
  | a :: as, b :: bs => if a == b then commonLen as bs + 1 else 0
  | _, _ => 0

/-- posixpath.relpath on normalized absolute segment lists: strip the
common prefix, ascend with ".." for every remaining segment of start,
then descend into the remainder of p; the empty result becomes ["."]. -/
def relpathSegs (p start : List String) : List String :=
  let k := commonLen p start
  let r := List.replicate (start.length - k) ".." ++ p.drop k
  if r.isEmpty then ["."] else r

/-- Rendering a segment list the way os.path.join renders walk paths. -/
def joinPath (p : List String) : String := String.intercalate "/" p

/-- A directory tree: name of the directory, plain file entries, and
subdirectories, kept in filesystem enumeration order. -/
inductive FTree where
  | dir (name : String) (files : List String) (subs : List FTree)

def FTree.name : FTree → String
  | .dir n _ _ => n

def FTree.files : FTree → List String
  | .dir _ f _ => f

def FTree.subs : FTree → List FTree
  | .dir _ _ s => s

/-- Resolve a segment path to a subdirectory of the tree (the empty
path is the tree itself). -/
def findDir : FTree → List String → Option FTree
  | t, [] => some t
  | t, n :: rest =>
    match t.subs.find? (fun s => s.name == n) with
    | some s => findDir s rest
    | none => none

/-- True when the path names a plain file entry of its parent
directory. -/
def hasFile (t : FTree) (p : List String) : Bool :=
  !p.isEmpty &&
    match findDir t p.dropLast with
    | some d => d.files.contains (basenameOf p)
    | none => false

/-- The filesystem predicates induced by a directory tree rooted at the
current working directory.  The empty path renders as the empty string,
for which os.path.exists and os.path.isdir both return False. -/
def fsOfTree (t : FTree) : FS where
  existsP := fun p => !p.isEmpty && ((findDir t p).isSome || hasFile t p)
  isdir := fun p => !p.isEmpty && (findDir t p).isSome

/-- One yield of ImpAllTest._all_imports: either a package directory or
a source file inside a walked directory. -/
inductive Item where
  | pkg (path : List String)
  | file (dirPath : List String) (fname : String)
deriving DecidableEq, Repr

/-- The string the generator actually yields: the directory path, or
os.path.join(directory, f). -/
def Item.path : Item → List String
  | .pkg p => p
  | .file d f => d ++ [f]

/-- ImpAllTest._accept_dir (lines 227-230): in strict mode (MODULES
true, the default) only package directories are descended; otherwise
only ignored directories are pruned. -/
def accept_dir (modules : Bool) (fs : FS) (p : List String) : Bool :=
  if modules then is_python_dir fs p else !is_ignored fs p

mutual

/-- ImpAllTest._all_imports (lines 181-193) restricted to one root of
the os.walk: a non-root directory failing _accept_dir contributes
nothing and its whole subtree is pruned (sub_dirs.clear plus continue);
an accepted directory yields itself when it is a package directory,
then its ".py" files that are not ignored, then the walks of its
subdirectories in order. -/
def walkDir (modules : Bool) (fs : FS) (isRoot : Bool) (path : List String) : FTree → List Item
  | .dir _ files subs =>
    if !isRoot && !accept_dir modules fs path then []
    else
      (if is_python_dir fs path then [Item.pkg path] else [])
        ++ files.filterMap (fun f =>
            if strEnds f ".py" && !is_ignored fs [f] then some (Item.file path f) else none)
        ++ walkSubs modules fs path subs
termination_by structural t => t

/-- Top-down traversal of the subdirectories of a walked directory. -/
def walkSubs (modules : Bool) (fs : FS) (path : List String) : List FTree → List Item
  | [] => []
  | s :: rest => walkDir modules fs false (path ++ [s.name]) s ++ walkSubs modules fs path rest
termination_by structural l => l

end

/-- Errors that propagate out of ImpAllTest.impall: FileNotFoundError
from path_to_import, or an import exception re-raised because
RAISE_EXCEPTIONS is set. -/
inductive EngineErr where
  | notFound
  | loadError (detail : String)
deriving DecidableEq, Repr

/-- Outcome of the run: either an exception propagated out of the loop,
or the (successes, failures) pair the method returns. -/
inductive RunResult where
  | raised (e : EngineErr)
  | finished (successes : List String) (failures : List (String × String))
deriving DecidableEq, Repr

/-- The resolved configuration of one run (section 3 Config).  PATHS
entries and pattern lists are already split; cwd is the absolute
current working directory as a segment list, and PATHS entries are
given relative to it (the shape the repository tests use). -/
structure Config where
  modules : Bool
  includePats : Option (List String)
  excludePats : List String
  raiseExceptions : Bool
  warningsAction : String
  paths : List (List String)
  cwd : List String

/-- os.path.relpath(p, cwd) for a cwd-relative path p, rendered as the
source renders it. -/
def relName (cwd p : List String) : String := joinPath (relpathSegs (cwd ++ p) cwd)

/-- Step outcome of one ImpAllTest._import call. -/
inductive StepResult where
  | stop (e : EngineErr)
  | cont (successes : List String) (failures : List (String × String))

/-- ImpAllTest._import (lines 195-225) as seen from the result lists:
resolve the unit with path_to_import (a missing file would raise),
filter on the ".py"-stripped path relative to the current working
directory (include must match and exclude must not), then consult the
load oracle for the dotted module name.  Success appends the
cwd-relative file path to successes; an exception appends (file path,
detail) to failures, unless RAISE_EXCEPTIONS is set, in which case it
propagates.  The loader-state save and restore around the load is
modeled separately by importUnitState. -/
def import_one (cfg : Config) (fs : FS) (loader : String → Option String)
    (successes : List String) (failures : List (String × String)) (file : List String) :
    StepResult :=
  match path_to_import fs file with
  | none => .stop .notFound
  | some (_root, module) =>
    let rel := relName cfg.cwd (stripPy file)
    if !incMatch cfg.includePats rel || excMatch cfg.excludePats rel then
      .cont successes failures
    else
      let filePath := relName cfg.cwd file
      match loader module with
      | none => .cont (successes ++ [filePath]) failures
      | some detail =>
        if cfg.raiseExceptions then .stop (.loadError detail)
        else .cont successes (failures ++ [(filePath, detail)])

/-- The for loop of ImpAllTest.impall over all yielded units. -/
def runUnits (cfg : Config) (fs : FS) (loader : String → Option String) :
    List (List String) → List String → List (String × String) → RunResult
  | [], successes, failures => .finished successes failures
  | u :: rest, successes, failures =>
    match import_one cfg fs loader successes failures u with
    | .stop e => .raised e
    | .cont s f => runUnits cfg fs loader rest s f

/-- warnings.simplefilter(action): the filter entry is removed if
already present and inserted at the front of warnings.filters. -/
def simplefilterPush (action : String) (filters : List String) : List String :=
  action :: filters.erase action

/-- ImpAllTest.impall (lines 169-179) for a nonempty PATHS list: push
the warning filter, walk every root (os.walk of a path that is not an
existing directory yields nothing), attempt every unit in walk order,
and pop the pushed filter — but only on the non-raising path, because
the source has no try/finally around the loop.  Returns the run
outcome together with the final warnings.filters. -/
def impall (cfg : Config) (tree : FTree) (loader : String → Option String)
    (filters : List String) : RunResult × List String :=
  let fs := fsOfTree tree
  let units := (cfg.paths.map (fun p =>
      match findDir tree p with
      | some t => (walkDir cfg.modules fs true p t).map Item.path
      | none => [])).flatten
  let filters1 := simplefilterPush cfg.warningsAction filters
  match runUnits cfg fs loader units [] [] with
  | .raised e => (.raised e, filters1)
  | .finished s f => (.finished s f, filters1.tail)

/-- The process-wide loader state touched by one import attempt: the
module registry sys.modules and the search path sys.path. -/
structure LoaderState where
  modules : String → Option Nat
  path : List String

/-- The deletion loop of the finally block (lines 222-223): every key
of the current registry that is not in the snapshot is removed. -/
def deleteExtra (saved cur : String → Option Nat) : String → Option Nat :=
  fun k => if (saved k).isSome then cur k else none

/-- sys.modules.update(saved_modules) (line 224): every snapshot entry
overwrites the current one. -/
def updateWith (saved base : String → Option Nat) : String → Option Nat :=
  fun k =>
    match saved k with
    | some v => some v
    | none => base k

/-- Result of one ImpAllTest._import attempt as far as control flow is
concerned. -/
inductive ImportResult where
  | success
  | failure (detail : String)
  | raised (detail : String)

/-- The state discipline of ImpAllTest._import (lines 206-225): take
the registry snapshot when CLEAR_SYS_MODULES is set, copy sys.path,
push the search root, run the load (an arbitrary mutation of the whole
loader state, possibly raising), then in the finally block delete the
registry entries not in the snapshot, restore the snapshot entries, and
slice-assign sys.path back to the copy. -/
def importUnitState (clear raiseExc : Bool) (root : String)
    (load : LoaderState → LoaderState × Option String) (st : LoaderState) :
    ImportResult × LoaderState :=
  let savedModules := st.modules
  let savedPath := st.path
  let (st2, exc) := load { st with path := root :: st.path }
  let finalModules :=
    if clear then updateWith savedModules (deleteExtra savedModules st2.modules)
    else st2.modules
  let finalState : LoaderState := { modules := finalModules, path := savedPath }
  match exc with
  | none => (.success, finalState)
  | some d => if raiseExc then (.raised d, finalState) else (.failure d, finalState)

/-- What import_file (lines 262-275) leaves behind: the entry it pushed
onto sys.path for the duration of the load, the outcome of the load
(none means the module was returned, some detail means the exception
propagated), and the final sys.path after the finally block. -/
structure ImportFileOut where
  pushed : String
  loadOutcome : Option String
  finalSysPath : List String
deriving DecidableEq, Repr

/-- import_file from src/impall.py lines 262-275: resolve with
path_to_import (none propagates FileNotFoundError), push `root or "."`
onto sys.path, load, and restore sys.path in the finally block on both
outcomes. -/
def import_file (fs : FS) (load : String → Option String) (sysPath : List String)
    (p : List String) : Option ImportFileOut :=
  match path_to_import fs p with
  | none => none
  | some (root, module) =>
    let pushed := if root.isEmpty then "." else joinPath root
    some { pushed := pushed, loadOutcome := load module, finalSysPath := sysPath }

end Impall

namespace Impall

/-! Concrete fixtures shared by the scenario theorems. -/

/-- The package directory of the run scenario: boundary marker present,
one file that imports cleanly and one that raises on load. -/
def pkgDir : FTree := .dir "pkg" ["__init__.py", "good.py", "bad.py"] []

/-- Current working directory containing the pkg package. -/
def treePkg : FTree := .dir "" [] [pkgDir]

/-- Load oracle of the scenario: importing pkg.bad raises with detail
"boom", everything else succeeds. -/
def loaderPkg : String → Option String := fun m => if m == "pkg.bad" then some "boom" else none

/-- Default configuration of the scenario run: strict mode, no include
or exclude patterns, exceptions captured, PATHS = ["pkg"]. -/
def cfgPkg : Config where
  modules := true
  includePats := none
  excludePats := []
  raiseExceptions := false
  warningsAction := "default"
  paths := [["pkg"]]
  cwd := []

/-- Package directory containing a dunder-main file, a dot file and a
plain file, for the walker ignore-policy theorems. -/
def mainDir : FTree := .dir "pkg" ["__init__.py", "__main__.py", ".hidden.py", "a.py"] []

/-- Current working directory containing mainDir. -/
def treeMain : FTree := .dir "" [] [mainDir]

/-- A nested package directory inside a non-package directory. -/
def innerDir : FTree := .dir "inner" ["__init__.py", "deep.py"] []

/-- A non-package directory (no boundary marker) holding a stray source
file and the nested package innerDir. -/
def plainDir : FTree := .dir "plain" ["stray.py"] [innerDir]

/-- Current working directory with package pkg containing the
non-package subdirectory plainDir. -/
def treeDeep : FTree := .dir "" [] [.dir "pkg" ["__init__.py"] [plainDir]]

/-- Repository-layout directory for the bare-file resolution theorem:
impall.py sits directly in the working directory, whose parent chain
carries no package marker. -/
def treeTop : FTree := .dir "" ["impall.py", "setup.py"] [.dir "test" ["test_impall.py"] []]

/-- Absolute path of the unit used by the cwd-relative matching
theorem, mirroring test/edge/edge/ok.py of the repository test suite
checked out under /repo. -/
def fileEdge : List String := ["repo", "test", "edge", "edge", "ok.py"]

/-- The skip decision of ImpAllTest._import lines 197-200 for a unit
with absolute path absFile: the ".py" suffix is stripped, the path is
taken relative to the current working directory, and the unit is
skipped when include fails to match or exclude matches. -/
def filter_skips (inc : Option (List String)) (exc : List String) (cwd absFile : List String) :
    Bool :=
  let rel := joinPath (relpathSegs (stripPy absFile) cwd)
  !incMatch inc rel || excMatch exc rel

/-! Helper lemmas. -/

/-- The finally block restores the registry exactly: deleting the keys
absent from the snapshot and then writing back every snapshot entry
yields the snapshot, whatever the load did to the registry. -/
theorem updateWith_deleteExtra (saved cur : String → Option Nat) :
    updateWith saved (deleteExtra saved cur) = saved := by
  funext k
  unfold updateWith deleteExtra
  cases h : saved k <;> simp [h]

/-- Structural induction over directory trees, descending into every
subdirectory. -/
theorem FTree.inductionOn (motive : FTree → Prop)
    (h : ∀ n f s, (∀ x ∈ s, motive x) → motive (FTree.dir n f s)) : ∀ t, motive t
  | .dir n f s => h n f s (fun x _ => FTree.inductionOn motive h x)
termination_by t => sizeOf t
decreasing_by
  rename_i hx
  have := List.sizeOf_lt_of_mem hx
  simp only [FTree.dir.sizeOf_spec]
  omega

/-- Every item produced while walking a list of subdirectories comes
from the walk of one of them. -/
theorem walkSubs_mem_aux (modules : Bool) (fs : FS) (P : Item → Prop) :
    ∀ (l : List FTree) (path : List String),
      (∀ x ∈ l, ∀ (path2 : List String) (item : Item),
          item ∈ walkDir modules fs false path2 x → P item) →
      ∀ item ∈ walkSubs modules fs path l, P item := by
  intro l
  induction l with
  | nil =>
    intro path _ item h
    rw [walkSubs] at h
    simp at h
  | cons s rest ih =>
    intro path hall item hm
    rw [walkSubs] at hm
    rcases List.mem_append.mp hm with h1 | h2
    · exact hall s (List.mem_cons_self s rest) (path ++ [s.name]) item h1
    · exact ih path (fun x hx => hall x (List.mem_cons_of_mem s hx)) item h2

end Impall

namespace Impall

/-! Claim theorems. -/

/-- Claim C1, counterexample: under the fnmatch semantics the source
actually uses, pattern "a.*" does match "a.b.c" (the claim says it must
not) and pattern "a.**" does not match "a" (the claim says it must). -/
theorem segment_wildcards_counterexample :
    split_pattern ["a.*"] "a.b.c" = true ∧ split_pattern ["a.**"] "a" = false := by
  decide

/-- Claim C1, amended: Matcher.matches applies fnmatch glob semantics
to the whole string, where a star spans dots: pattern "a.*" matches
"a.b" and "a.b.c" but not "a", and pattern "a.**" behaves identically
to "a.*", matching "a.b" and "a.b.c" but neither "a" nor "ab". -/
theorem fnmatch_wildcard_semantics :
    split_pattern ["a.*"] "a.b" = true ∧ split_pattern ["a.*"] "a" = false ∧
    split_pattern ["a.*"] "a.b.c" = true ∧ split_pattern ["a.**"] "a" = false ∧
    split_pattern ["a.**"] "a.b" = true ∧ split_pattern ["a.**"] "a.b.c" = true ∧
    split_pattern ["a.**"] "ab" = false := by
  decide

/-- Claim C2, counterexample: on the pkg scenario the run reports the
cwd-relative file paths "pkg/good.py" and "pkg/bad.py", not the dotted
names "pkg.good" and "pkg.bad" the claim states, whatever the captured
detail text is. -/
theorem run_dotted_name_reporting_counterexample :
    (impall cfgPkg treePkg loaderPkg ["w"]).1
        = .finished ["pkg", "pkg/good.py"] [("pkg/bad.py", "boom")] ∧
      ∀ d : String,
        RunResult.finished ["pkg", "pkg/good.py"] [("pkg/bad.py", "boom")]
          ≠ RunResult.finished ["pkg", "pkg.good"] [("pkg.bad", d)] := by
  refine ⟨by decide, fun d h => ?_⟩
  injection h with h1 h2
  exact absurd h1 (by decide)

/-- Claim C2, amended: on the pkg scenario the run returns successes
["pkg", "pkg/good.py"] and failures [("pkg/bad.py", detail)] — every
unit is reported under its cwd-relative file path (the package under
its directory path, files with the ".py" suffix kept), the package unit
precedes its files, and both sequences preserve walk order. -/
theorem run_reports_relative_file_paths :
    (impall cfgPkg treePkg loaderPkg ["w"]).1
      = .finished ["pkg", "pkg/good.py"] [("pkg/bad.py", "boom")] := by
  decide

/-- Claim C3: with CLEAR_SYS_MODULES set, whatever mutation the load
performs and whether it succeeds, is captured, or is re-raised, the
finally block of ImpAllTest._import leaves sys.modules equal to the
pre-load snapshot and sys.path equal to its pre-attempt value. -/
theorem clear_state_restores_registry_and_path (raiseExc : Bool) (root : String)
    (load : LoaderState → LoaderState × Option String) (st : LoaderState) :
    (importUnitState true raiseExc root load st).2.modules = st.modules ∧
    (importUnitState true raiseExc root load st).2.path = st.path := by
  unfold importUnitState
  rcases load { st with path := root :: st.path } with ⟨st2, exc⟩
  cases exc <;> cases raiseExc <;> simp [updateWith_deleteExtra]

/-- Claim C4 (code bug): on the fail-fast abort path the pushed warning
filter is not removed — the run aborts with the load error while
warnings.filters still holds the entry simplefilter pushed, because the
source has no try/finally around the pop; on the normal completion path
the filters are restored. -/
theorem warnings_filter_leaked_on_fail_fast :
    impall { cfgPkg with raiseExceptions := true } treePkg loaderPkg ["w"]
        = (.raised (.loadError "boom"), ["default", "w"]) ∧
      (["default", "w"] : List String) ≠ ["w"] ∧
      (impall cfgPkg treePkg loaderPkg ["w"]).2 = ["w"] := by
  decide

/-- Claim C5, counterexample: an include matcher actually compiled from
the empty pattern sequence matches nothing, so on the pkg scenario with
INCLUDE = [] every unit is skipped — the run finishes with empty
successes and failures although the walk yielded three units and no
exclude pattern matches any of them. -/
theorem empty_include_skips_everything_counterexample :
    (impall { cfgPkg with includePats := some [] } treePkg loaderPkg ["w"]).1
        = .finished [] [] ∧
      excMatch [] "pkg" = false ∧
      (walkDir true (fsOfTree treePkg) true ["pkg"] pkgDir).map Item.path
        = [["pkg"], ["pkg", "good.py"], ["pkg", "bad.py"]] := by
  decide

/-- Claim C5, amended: the no-include-filter sentinel is INCLUDE =
None, under which the matcher accepts every name and every non-excluded
unit is attempted; an include matcher compiled from an empty pattern
sequence instead matches nothing. -/
theorem include_none_sentinel_matches_everything :
    (∀ s : String, incMatch none s = true) ∧
      (impall cfgPkg treePkg loaderPkg ["w"]).1
        = .finished ["pkg", "pkg/good.py"] [("pkg/bad.py", "boom")] ∧
      (∀ s : String, incMatch (some []) s = false) := by
  exact ⟨fun s => rfl, by decide, fun s => rfl⟩

/-- Claim C6, counterexample: the walker does yield "__main__.py" — a
file whose base name starts with the reserved prefix "__" — because
_is_ignored only drops a dunder name when a directory of that name
exists relative to the current working directory. -/
theorem dunder_main_yielded_counterexample :
    Item.file ["pkg"] "__main__.py"
      ∈ walkDir true (fsOfTree treeMain) true ["pkg"] mainDir := by
  decide

/-- Unpacking a false _is_ignored verdict on a bare file name. -/
theorem is_ignored_false_elim (fs : FS) (f : String) (h : is_ignored fs [f] = false) :
    strStarts f "." = false ∧ f ≠ "__init__.py" ∧ (strStarts f "__" = true → fs.isdir [f] = false) := by
  have hb : basenameOf [f] = f := rfl
  unfold is_ignored at h
  rw [hb] at h
  simp only [Bool.or_eq_false_iff, Bool.and_eq_false_iff, beq_eq_false_iff_ne] at h
  obtain ⟨h1, h2, h3⟩ := h
  refine ⟨h1, h3, fun hdu => ?_⟩
  rcases h2 with h2 | h2
  · rw [hdu] at h2
    exact absurd h2 (by simp)
  · exact h2

/-- Claim C6, amended: a file is yielded only if its name ends in ".py"
and is not ignored, where an ignored file name starts with ".", equals
"__init__.py", or starts with "__" while a directory of that bare name
exists at the current working directory; dot files and the boundary
marker are therefore never yielded, but a dunder file such as
"__main__.py" is yielded whenever no such directory exists. -/
theorem walker_file_yield_condition (modules : Bool) (fs : FS) :
    ∀ (t : FTree) (isRoot : Bool) (path : List String) (item : Item),
      item ∈ walkDir modules fs isRoot path t →
      ∀ (d : List String) (f : String), item = Item.file d f →
        strEnds f ".py" = true ∧ strStarts f "." = false ∧ f ≠ "__init__.py" ∧
          (strStarts f "__" = true → fs.isdir [f] = false) := by
  intro t
  induction t using FTree.inductionOn with
  | h n files subs ih =>
    intro isRoot path item hmem d f heq
    rw [walkDir] at hmem
    by_cases hpr : (!isRoot && !accept_dir modules fs path) = true
    · rw [if_pos hpr] at hmem
      simp at hmem
    · rw [if_neg hpr] at hmem
      rcases List.mem_append.mp hmem with h12 | h3
      · rcases List.mem_append.mp h12 with h1 | h2
        · subst heq
          by_cases hpy : is_python_dir fs path = true
          · rw [if_pos hpy] at h1
            simp at h1
          · rw [if_neg hpy] at h1
            simp at h1
        · obtain ⟨g, hg, hif⟩ := List.mem_filterMap.mp h2
          by_cases hc : (strEnds g ".py" && !is_ignored fs [g]) = true
          · rw [if_pos hc] at hif
            have hit : Item.file path g = item := Option.some.inj hif
            rw [heq] at hit
            injection hit with hd hf
            subst hf
            rw [Bool.and_eq_true] at hc
            obtain ⟨hend, hign⟩ := hc
            rw [Bool.not_eq_true'] at hign
            obtain ⟨hdot, hinit, hdu⟩ := is_ignored_false_elim fs g hign
            exact ⟨hend, hdot, hinit, hdu⟩
          · rw [if_neg hc] at hif
            exact absurd hif (by simp)
      · exact walkSubs_mem_aux modules fs
          (fun item => ∀ (d : List String) (f : String), item = Item.file d f →
            strEnds f ".py" = true ∧ strStarts f "." = false ∧ f ≠ "__init__.py" ∧
              (strStarts f "__" = true → fs.isdir [f] = false))
          subs path (fun x hx path2 item2 hm => ih x hx false path2 item2 hm) item h3 d f heq

end Impall

namespace Impall

/-- Witness for the C6 amended theorem at a concrete walked file. -/
theorem walker_file_yield_condition_witness :
    strEnds "a.py" ".py" = true ∧ strStarts "a.py" "." = false ∧ "a.py" ≠ "__init__.py" ∧
      (strStarts "a.py" "__" = true → (fsOfTree treeMain).isdir ["a.py"] = false) :=
  walker_file_yield_condition true (fsOfTree treeMain) mainDir true ["pkg"]
    (Item.file ["pkg"] "a.py") (by decide) ["pkg"] "a.py" rfl

/-- Claim C7: in strict mode a non-root directory that is not a package
directory contributes nothing — its entire subtree is pruned — while
the walk root is expanded unconditionally, without any _accept_dir
test. -/
theorem strict_mode_prunes_and_root_descends :
    (∀ (fs : FS) (path : List String) (t : FTree),
        is_python_dir fs path = false → walkDir true fs false path t = []) ∧
      (∀ (fs : FS) (path : List String) (n : String) (files : List String) (subs : List FTree),
        walkDir true fs true path (.dir n files subs)
          = (if is_python_dir fs path then [Item.pkg path] else [])
              ++ files.filterMap (fun f =>
                  if strEnds f ".py" && !is_ignored fs [f] then some (Item.file path f)
                  else none)
              ++ walkSubs true fs path subs) := by
  constructor
  · intro fs path t hpy
    cases t with
    | dir n files subs =>
      rw [walkDir]
      simp [accept_dir, hpy]
  · intro fs path n files subs
    rw [walkDir]
    simp

/-- Witness for C7: the non-package directory plain under package pkg
is pruned entirely even though it contains the nested package inner. -/
theorem strict_mode_prunes_witness :
    is_python_dir (fsOfTree treeDeep) ["pkg", "plain"] = false ∧
      is_python_dir (fsOfTree treeDeep) ["pkg", "plain", "inner"] = true ∧
      walkDir true (fsOfTree treeDeep) false ["pkg", "plain"] plainDir = [] :=
  ⟨by decide, by decide,
    strict_mode_prunes_and_root_descends.1 (fsOfTree treeDeep) ["pkg", "plain"] plainDir
      (by decide)⟩

/-- Claim C8, counterexample: a configured root that does not exist is
not fatal — os.walk yields nothing for it, so the run completes
normally with empty successes and failures instead of propagating an
error, and nothing is captured as a per-unit failure. -/
theorem missing_root_not_fatal_counterexample :
    impall { cfgPkg with paths := [["nope"]] } treePkg loaderPkg ["w"]
        = (.finished [] [], ["w"]) ∧
      (fsOfTree treePkg).existsP ["nope"] = false := by
  decide

/-- Claim C8, amended: path_to_import on a path that does not exist
fails with FileNotFoundError; but a configured root that does not exist
is silently skipped by the walk (path_to_import is never applied to the
root itself), so the run returns empty results rather than aborting,
and the missing root never appears as a per-unit failure. -/
theorem path_to_import_missing_errors (fs : FS) (p : List String)
    (h : fs.existsP p = false) : path_to_import fs p = none := by
  unfold path_to_import
  simp [h]

/-- Witness for the C8 amended theorem at a concrete missing path. -/
theorem path_to_import_missing_errors_witness :
    (fsOfTree treePkg).existsP ["nope"] = false ∧
      path_to_import (fsOfTree treePkg) ["nope"] = none :=
  ⟨by decide, path_to_import_missing_errors (fsOfTree treePkg) ["nope"] (by decide)⟩

/-- Claim C9: the include and exclude patterns are matched against the
unit path relative to the current working directory with the ".py"
suffix stripped and the path separators kept — so the pattern
"test/edge/edge/ok" matches the unit when the process runs at the
repository root, the same pattern fails when the process runs inside
test, and the dotted module name "edge.edge.ok" never matches. -/
theorem patterns_match_cwd_relative_paths :
    relpathSegs (stripPy fileEdge) ["repo"] = ["test", "edge", "edge", "ok"] ∧
      filter_skips (some ["test/edge/edge/ok"]) [] ["repo"] fileEdge = false ∧
      filter_skips (some ["test/edge/edge/ok"]) [] ["repo", "test"] fileEdge = true ∧
      filter_skips (some ["edge.edge.ok"]) [] ["repo"] fileEdge = true := by
  decide

/-- Claim C10: for the bare relative file impall.py with no package
marker anywhere above it, path_to_import returns the empty search root
and module name "impall"; import_file then pushes "." in place of the
empty root and leaves sys.path equal to its prior value whatever the
load does. -/
theorem bare_file_empty_root_and_dot_substituted :
    path_to_import (fsOfTree treeTop) ["impall.py"] = some ([], "impall") ∧
      ∀ (load : String → Option String) (sysPath : List String),
        import_file (fsOfTree treeTop) load sysPath ["impall.py"]
          = some { pushed := ".", loadOutcome := load "impall", finalSysPath := sysPath } := by
  refine ⟨by decide, fun load sysPath => ?_⟩
  have h : path_to_import (fsOfTree treeTop) ["impall.py"] = some ([], "impall") := by decide
  simp [import_file, h, joinPath]

end Impall

namespace Impall

/-- A concrete initial loader state for the C3 witness. -/
def stW : LoaderState where
  modules := fun _ => none
  path := ["p"]

/-- A concrete load effect for the C3 witness: registers a module,
pushes a junk search-path entry, and raises. -/
def loadW : LoaderState → LoaderState × Option String := fun s =>
  ({ modules := fun k => if k == "pkg" then some 1 else s.modules k,
     path := "junk" :: s.path }, some "boom")

/-- Witness for C3 at a concrete mutating and raising load. -/
theorem clear_state_restores_registry_and_path_witness :
    (importUnitState true false "r" loadW stW).2.modules = stW.modules ∧
      (importUnitState true false "r" loadW stW).2.path = stW.path :=
  clear_state_restores_registry_and_path false "r" loadW stW

/-- Witness for the C5 amended theorem at concrete names. -/
theorem include_none_sentinel_matches_everything_witness :
    incMatch none "pkg" = true ∧
      (impall cfgPkg treePkg loaderPkg ["w"]).1
        = .finished ["pkg", "pkg/good.py"] [("pkg/bad.py", "boom")] ∧
      incMatch (some []) "pkg" = false :=
  ⟨include_none_sentinel_matches_everything.1 "pkg",
    include_none_sentinel_matches_everything.2.1,
    include_none_sentinel_matches_everything.2.2 "pkg"⟩

/-- Witness for C10 at a concrete load oracle and search path. -/
theorem bare_file_empty_root_witness :
    import_file (fsOfTree treeTop) (fun _ => none) ["spam"] ["impall.py"]
      = some { pushed := ".", loadOutcome := none, finalSysPath := ["spam"] } :=
  bare_file_empty_root_and_dot_substituted.2 (fun _ => none) ["spam"]

end Impall
